import Mathlib

/-!
Shallow embedding of `src/managedata.py` (quiz-bank import/indexing pipeline).

The persisted JSON state (a subject's `index.json` entry list, the set of
chapter files in the subject directory, and the global `subjects.json`
registry) is modelled as explicit data passed through pure functions.
File-system effects that can fail (deleting a stale chapter file, writing a
chapter file) are driven by explicit environment flags saying whether the
operation succeeds.
-/

namespace Tiku

/-- Parsed JSON values. Mappings are association lists in insertion order
(Python `dict` preserves insertion order), keys distinct in any state
produced by `json.load`. -/
inductive JSON where
  | null
  | bool (b : Bool)
  | num (n : Int)
  | str (s : String)
  | arr (elems : List JSON)
  | obj (fields : List (String × JSON))

/-- Python `dict` key lookup on the association-list model (first match). -/
def jlookup : List (String × JSON) → String → Option JSON
  | [], _ => none
  | (k, v) :: rest, key => if k = key then some v else jlookup rest key

/-- The scan in `process_file_with_subject` lines 100-103: first value of the
mapping (insertion order) that is a non-empty list whose first element is a
dict containing key `"question"`; `[]` when no value matches. -/
def findQuestionList : List (String × JSON) → List JSON
  | [] => []
  | (_, v) :: rest =>
    match v with
    | .arr (q0 :: qs) =>
      match q0 with
      | .obj f => if (jlookup f "question").isSome then q0 :: qs else findQuestionList rest
      | _ => findQuestionList rest
    | _ => findQuestionList rest

/-- Lines 95-105: extraction of `all_questions` from the parsed content. -/
def extract_questions : JSON → List JSON
  | .obj fields =>
    match jlookup fields "questions" with
    | some (.arr qs) => qs
    | _ => findQuestionList fields
  | .arr qs => qs
  | _ => []

/-- A chapter index entry / the `chap_info` record built at lines 139-145. -/
structure ChapterInfo where
  id : String
  title : String
  file : String
  count : Nat
  updated_at : String
deriving DecidableEq

/-- Value of a digit run, as Python `int` of the digit substring. -/
def digitsVal (ds : List Char) : Nat :=
  ds.foldl (fun acc c => acc * 10 + (c.toNat - 48)) 0

/-- First maximal run of decimal digits in a character list
(`re.findall(r"\d+", s)[0]`), parsed as a number; `none` when no digit. -/
def firstNum : List Char → Option Nat
  | [] => none
  | c :: rest =>
    if c.isDigit then some (digitsVal (c :: rest.takeWhile Char.isDigit))
    else firstNum rest

/-- `sort_key` at lines 65-68: first integer in the title, else `9999`. -/
def sort_key (item : ChapterInfo) : Nat :=
  match firstNum item.title.data with
  | some n => n
  | none => 9999

/-- Boolean comparison used for the index sort (Python `list.sort(key=sort_key)`
compares keys with `≤`, stably). -/
def indexLe (a b : ChapterInfo) : Bool := sort_key a ≤ sort_key b

/-- `index.sort(key=sort_key)` at line 69: a stable sort by `sort_key`. -/
def sortIndex (index : List ChapterInfo) : List ChapterInfo :=
  index.mergeSort indexLe

/-- State of one subject directory: the entry list persisted in `index.json`
and the names of chapter files present in the directory. -/
structure SubjectState where
  index : List ChapterInfo
  files : List String
deriving DecidableEq

/-- The loop at lines 48-52 combined with the in-place replacement at line 60:
replace the first entry whose `title` equals `ci.title` by `ci`, also
returning the old entry; `none` when no title matches. -/
def replaceByTitle : List ChapterInfo → ChapterInfo → Option (List ChapterInfo × ChapterInfo)
  | [], _ => none
  | item :: rest, ci =>
    if item.title = ci.title then some (ci :: rest, item)
    else
      match replaceByTitle rest ci with
      | some (rest', old) => some (item :: rest', old)
      | none => none

/-- The update-or-append on the loaded entry list (lines 48-62). -/
def upsertByTitle (index : List ChapterInfo) (ci : ChapterInfo) : List ChapterInfo :=
  match replaceByTitle index ci with
  | some (replaced, _) => replaced
  | none => index ++ [ci]

/-- `update_subject_index` (lines 36-74) on the explicit subject state.
`deleteOk` says whether the `os.remove` of the stale file succeeds: the
`try/except: pass` swallows a failure. Returns the new state and the
function's return value `len(index)`. -/
def update_subject_index (st : SubjectState) (ci : ChapterInfo) (deleteOk : Bool) :
    SubjectState × Nat :=
  match replaceByTitle st.index ci with
  | some (replaced, old) =>
    let files' :=
      if old.file ∈ st.files ∧ old.file ≠ ci.file then
        (if deleteOk then st.files.erase old.file else st.files)
      else st.files
    let newIndex := sortIndex replaced
    ({ index := newIndex, files := files' }, newIndex.length)
  | none =>
    let newIndex := sortIndex (st.index ++ [ci])
    ({ index := newIndex, files := st.files }, newIndex.length)

/-- Python `str.strip()`: drop whitespace from both ends. -/
def stripWS (s : String) : String :=
  ⟨((s.data.dropWhile Char.isWhitespace).reverse.dropWhile Char.isWhitespace).reverse⟩

/-- Lines 118-119: the chapter label of one question. `q.get("chapter", "")`
followed by `.strip()`, empty label falling back to the source-file stem.
`none` models a raised exception: a non-mapping question has no `.get`, and a
non-string `chapter` value has no `.strip()`. -/
def chapterLabel (fallback : String) : JSON → Option String
  | .obj fields =>
    match jlookup fields "chapter" with
    | none => some fallback
    | some (.str s) =>
      let t := stripWS s
      some (if t = "" then fallback else t)
    | some _ => none
  | _ => none

/-- Line 120-121: `chapters_map[c_name].append(q)`, creating the key at the
end when absent (Python dicts append new keys in insertion order). -/
def insertAppend (m : List (String × List JSON)) (k : String) (q : JSON) :
    List (String × List JSON) :=
  match m with
  | [] => [(k, [q])]
  | (k', qs) :: rest =>
    if k' = k then (k', qs ++ [q]) :: rest else (k', qs) :: insertAppend rest k q

/-- The partition loop at lines 116-121, threading the accumulated map;
`none` models an exception raised while computing some question's label. -/
def partitionGo (fallback : String) (acc : List (String × List JSON)) :
    List JSON → Option (List (String × List JSON))
  | [] => some acc
  | q :: qs =>
    match chapterLabel fallback q with
    | none => none
    | some l => partitionGo fallback (insertAppend acc l q) qs

/-- `chapters_map` as built at lines 116-121 from the extracted questions. -/
def partitionQuestions (fallback : String) (qs : List JSON) :
    Option (List (String × List JSON)) :=
  partitionGo fallback [] qs

/-- A `subjects.json` registry entry (lines 156-161 plus line 164). -/
structure SubjectEntry where
  id : String
  name : String
  dir : String
  created_at : String
  updated_at : String
deriving DecidableEq

/-- `next((s for s in subjects if s["name"] == subject_name), None)` followed
by the in-place `sub_entry["updated_at"] = now`: refresh the first entry with
the given name, `none` when no entry matches. -/
def touchFirstByName (now : String) (name : String) :
    List SubjectEntry → Option (List SubjectEntry)
  | [] => none
  | s :: rest =>
    if s.name = name then some ({ s with updated_at := now } :: rest)
    else
      match touchFirstByName now name rest with
      | some rest' => some (s :: rest')
      | none => none

/-- The registry step at lines 150-165: upsert by `name`, a fresh entry using
`sub_{int(time.time())}` as id, today's date as `created_at`, and in both
cases `updated_at := now`. -/
def updateSubjects (subjects : List SubjectEntry) (name : String) (subTime : Nat)
    (now today : String) : List SubjectEntry :=
  match touchFirstByName now name subjects with
  | some subjects' => subjects'
  | none =>
      subjects ++ [{ id := "sub_" ++ toString subTime, name := name, dir := name,
                     created_at := today, updated_at := now }]

/-- Environment of one `process_file_with_subject` call: the two `time.time()`
readings, the formatted clock strings, and per-chapter success of the chapter
file write (`writeOk`), of the stale-file delete inside
`update_subject_index` (`deleteOk`), and the text of a write exception
(`errText`). -/
structure Env where
  base_time : Nat
  sub_time : Nat
  now : String
  today : String
  writeOk : Nat → Bool
  deleteOk : Nat → Bool
  errText : Nat → String

/-- The mutable on-disk state touched by one import: the target subject's
directory and the global registry. -/
structure Store where
  subject : SubjectState
  subjects : List SubjectEntry

/-- Result of `process_file_with_subject`: the returned pair, or an unhandled
exception propagating to the caller. -/
inductive PResult where
  | ret (success : Bool) (msg : String)
  | exn
deriving DecidableEq

/-- `f"ch_{base_time}_{idx}.json"` (line 128). -/
def chFileName (t i : Nat) : String :=
  "ch_" ++ toString t ++ "_" ++ toString i ++ ".json"

/-- `f"c_{base_time}_{idx}"` (line 140). -/
def chId (t i : Nat) : String := "c_" ++ toString t ++ "_" ++ toString i

/-- Success log line (line 148). -/
def okLine (subject chap : String) (n : Nat) : String :=
  "✅ [" ++ subject ++ "] " ++ chap ++ " (" ++ toString n ++ "题)"

/-- Write-failure log line (line 135). -/
def errLine (chap err : String) : String :=
  "❌ " ++ chap ++ " 保存失败: " ++ err

/-- The chapter loop at lines 127-148: for chapter `i`, try to write the
chapter file (success given by `env.writeOk i`); on failure only log and
continue; on success record the file, call `update_subject_index`, and log. -/
def saveChapters (env : Env) (subject_name : String) :
    Nat → SubjectState → List (String × List JSON) → SubjectState × List String
  | _, st, [] => (st, [])
  | i, st, (chap, qlist) :: rest =>
    if env.writeOk i then
      let fname := chFileName env.base_time i
      let stWritten : SubjectState :=
        { st with files := if fname ∈ st.files then st.files else st.files ++ [fname] }
      let ci : ChapterInfo :=
        { id := chId env.base_time i, title := chap, file := fname,
          count := qlist.length, updated_at := env.now }
      let st' := (update_subject_index stWritten ci (env.deleteOk i)).1
      let next := saveChapters env subject_name (i + 1) st' rest
      (next.1, okLine subject_name chap qlist.length :: next.2)
    else
      let next := saveChapters env subject_name (i + 1) st rest
      (next.1, errLine chap (env.errText i) :: next.2)

/-- `process_file_with_subject` (lines 76-167) after a successful JSON parse:
`stem` is the source file's stem (extension removed), `content` the parsed
JSON. Returns the updated state and the call's result. -/
def process_file_with_subject (env : Env) (stem subject_name : String)
    (content : JSON) (st : Store) : Store × PResult :=
  let all_questions := extract_questions content
  if all_questions.isEmpty then (st, .ret false "未找到题目数据")
  else
    match partitionQuestions stem all_questions with
    | none => (st, .exn)
    | some chapters =>
      let r := saveChapters env subject_name 0 st.subject chapters
      let subjects' := updateSubjects st.subjects subject_name env.sub_time env.now env.today
      ({ subject := r.1, subjects := subjects' }, .ret true (String.intercalate "\n" r.2))

/-! ## Helper lemmas about the index sort -/

theorem sortIndex_perm (l : List ChapterInfo) : (sortIndex l).Perm l :=
  List.mergeSort_perm l indexLe

theorem length_sortIndex (l : List ChapterInfo) : (sortIndex l).length = l.length :=
  (sortIndex_perm l).length_eq

theorem indexLe_trans (a b c : ChapterInfo) :
    indexLe a b → indexLe b c → indexLe a c := by
  simp only [indexLe, decide_eq_true_eq]
  exact Nat.le_trans

theorem indexLe_total (a b : ChapterInfo) : indexLe a b || indexLe b a := by
  simp only [indexLe]
  rcases Nat.le_total (sort_key a) (sort_key b) with h | h <;> simp [h]

theorem sortIndex_pairwise (l : List ChapterInfo) :
    (sortIndex l).Pairwise (fun a b => sort_key a ≤ sort_key b) := by
  have h := List.sorted_mergeSort indexLe_trans indexLe_total l
  exact h.imp (fun hab => by simpa [indexLe] using hab)

/-- Stability of the index sort: for every key value, the entries carrying
that key appear in the sorted index exactly as they appeared in the input. -/
theorem sortIndex_stable (l : List ChapterInfo) (k : Nat) :
    (sortIndex l).filter (fun e => sort_key e == k) =
      l.filter (fun e => sort_key e == k) := by
  have hkey : ∀ a ∈ l.filter (fun e => sort_key e == k), sort_key a = k := by
    intro a ha
    exact beq_iff_eq.1 (List.mem_filter.1 ha).2
  have hpw : (l.filter (fun e => sort_key e == k)).Pairwise (fun a b => indexLe a b) := by
    apply List.pairwise_of_forall_mem_list
    intro a ha b hb
    simp only [indexLe, hkey a ha, hkey b hb, decide_eq_true_eq]
    exact Nat.le_refl k
  have hsub : List.Sublist (l.filter (fun e => sort_key e == k)) (sortIndex l) :=
    List.sublist_mergeSort indexLe_trans indexLe_total hpw (List.filter_sublist l)
  have hsub2 : List.Sublist (l.filter (fun e => sort_key e == k))
      ((sortIndex l).filter (fun e => sort_key e == k)) := by
    have h := hsub.filter (fun e => sort_key e == k)
    rwa [List.filter_filter, (by funext e; exact Bool.and_self _ :
      (fun e => (sort_key e == k) && (sort_key e == k)) = fun e => sort_key e == k)] at h
  have hperm : ((sortIndex l).filter (fun e => sort_key e == k)).Perm
      (l.filter (fun e => sort_key e == k)) := (sortIndex_perm l).filter _
  exact (hsub2.eq_of_length hperm.length_eq.symm).symm

/-! ## Helper lemmas about the title search and replacement -/

theorem replaceByTitle_none {l : List ChapterInfo} {ci : ChapterInfo}
    (h : replaceByTitle l ci = none) : ∀ e ∈ l, e.title ≠ ci.title := by
  induction l with
  | nil => intro e he; cases he
  | cons a l ih =>
    intro e he
    by_cases ha : a.title = ci.title
    · rw [replaceByTitle, if_pos ha] at h
      cases h
    · rw [replaceByTitle, if_neg ha] at h
      cases hr : replaceByTitle l ci with
      | some p => obtain ⟨r, old⟩ := p; rw [hr] at h; cases h
      | none =>
        rcases List.mem_cons.1 he with rfl | he2
        · exact ha
        · exact ih hr e he2

theorem replaceByTitle_some {l : List ChapterInfo} {ci : ChapterInfo}
    {r : List ChapterInfo} {old : ChapterInfo}
    (h : replaceByTitle l ci = some (r, old)) :
    ∃ l1 l2, l = l1 ++ old :: l2 ∧ r = l1 ++ ci :: l2 ∧ old.title = ci.title ∧
      ∀ e ∈ l1, e.title ≠ ci.title := by
  induction l generalizing r old with
  | nil => rw [replaceByTitle] at h; cases h
  | cons a l ih =>
    by_cases ha : a.title = ci.title
    · rw [replaceByTitle, if_pos ha] at h
      obtain ⟨h1, h2⟩ := Prod.mk.injEq .. ▸ Option.some.inj h
      exact ⟨[], l, by rw [← h2]; rfl, by rw [← h1]; rfl, h2 ▸ ha, by intro e he; cases he⟩
    · rw [replaceByTitle, if_neg ha] at h
      cases hr : replaceByTitle l ci with
      | none => rw [hr] at h; cases h
      | some p =>
        obtain ⟨r0, old0⟩ := p
        rw [hr] at h
        obtain ⟨h1, h2⟩ := Prod.mk.injEq .. ▸ Option.some.inj h
        obtain ⟨l1, l2, he1, he2, he3, he4⟩ := ih hr
        refine ⟨a :: l1, l2, ?_, ?_, h2 ▸ he3, ?_⟩
        · rw [← h2, he1]; rfl
        · rw [← h1, he2]; rfl
        · intro e he
          rcases List.mem_cons.1 he with rfl | he5
          · exact ha
          · exact he4 e he5

theorem update_subject_index_eq (st : SubjectState) (ci : ChapterInfo) (d : Bool) :
    (update_subject_index st ci d).1.index = sortIndex (upsertByTitle st.index ci) ∧
    (update_subject_index st ci d).2 = (sortIndex (upsertByTitle st.index ci)).length := by
  cases hr : replaceByTitle st.index ci with
  | none => simp [update_subject_index, upsertByTitle, hr]
  | some p =>
    obtain ⟨r, old⟩ := p
    simp [update_subject_index, upsertByTitle, hr]

theorem length_upsertByTitle (l : List ChapterInfo) (ci : ChapterInfo) :
    (upsertByTitle l ci).length =
      if l.any (fun e => e.title == ci.title) then l.length else l.length + 1 := by
  cases hr : replaceByTitle l ci with
  | none =>
    have hall := replaceByTitle_none hr
    rw [upsertByTitle, hr, if_neg, List.length_append, List.length_singleton]
    simp only [List.any_eq_true, beq_iff_eq]
    rintro ⟨e, he, hte⟩
    exact hall e he hte
  | some p =>
    obtain ⟨r, old⟩ := p
    obtain ⟨l1, l2, he1, he2, he3, -⟩ := replaceByTitle_some hr
    rw [upsertByTitle, hr, if_pos]
    · rw [he1, he2]; simp
    · refine List.any_eq_true.2 ⟨old, ?_, beq_iff_eq.2 he3⟩
      rw [he1]
      exact List.mem_append_right _ (List.mem_cons_self _ _)

/-- C1: `update_subject_index` is an upsert keyed by title. If some entry's
title equals the new record's title the entry is replaced (the persisted,
sorted sequence is a permutation of the replaced sequence and keeps its
length); otherwise the record is appended and the length grows by one; in
both cases the returned value is the length of the persisted sequence. -/
theorem spec_C1 (st : SubjectState) (ci : ChapterInfo) (d : Bool) :
    (update_subject_index st ci d).2 = (update_subject_index st ci d).1.index.length ∧
    ((update_subject_index st ci d).1.index).Perm (upsertByTitle st.index ci) ∧
    (update_subject_index st ci d).1.index.length =
      (if st.index.any (fun e => e.title == ci.title) then st.index.length
       else st.index.length + 1) := by
  obtain ⟨h1, h2⟩ := update_subject_index_eq st ci d
  refine ⟨by rw [h1, h2], h1 ▸ sortIndex_perm _, ?_⟩
  rw [h1, length_sortIndex, length_upsertByTitle]

/-- Two-element evaluation of the index sort. -/
theorem sortIndex_pair (a b : ChapterInfo) :
    sortIndex [a, b] = if indexLe a b then [a, b] else [b, a] := by
  simp [sortIndex, List.mergeSort, List.splitInTwo, List.splitAt_eq, List.merge]

/-- An index entry whose title's first integer literal exceeds the `9999`
sentinel used by `sort_key`. -/
def chap10000 : ChapterInfo :=
  { id := "c1", title := "Chapter 10000", file := "a.json", count := 1, updated_at := "t" }

/-- An index entry whose title contains no digit. -/
def chapIntro : ChapterInfo :=
  { id := "c2", title := "Intro", file := "b.json", count := 1, updated_at := "t" }

/-- C2 counterexample: inserting the digit-free title "Intro" into an index
holding "Chapter 10000" persists "Intro" BEFORE "Chapter 10000", because a
digit-free title gets the finite key `9999` rather than a key larger than
every digit key; so an entry without digits does not sort after every entry
with digits. -/
theorem spec_C2_counterexample :
    firstNum (String.data "Intro") = none ∧
    firstNum (String.data "Chapter 10000") = some 10000 ∧
    (update_subject_index ⟨[chap10000], []⟩ chapIntro true).1.index =
      [chapIntro, chap10000] := by
  refine ⟨by decide, by decide, ?_⟩
  have hr : replaceByTitle [chap10000] chapIntro = none := by decide
  obtain ⟨h1, -⟩ := update_subject_index_eq ⟨[chap10000], []⟩ chapIntro true
  rw [h1, upsertByTitle, hr]
  rw [show ([chap10000] ++ [chapIntro]) = [chap10000, chapIntro] from rfl, sortIndex_pair,
    if_neg (by decide)]

/-- C2 corrected: after every call the persisted index is sorted ascending by
`sort_key` (first integer literal of the title, digit-free titles keyed by
the sentinel `9999` — not by a key beyond every digit key), the sort is
stable (for every key value the entries carrying it keep their pre-sort
relative order), and every digit-free title gets exactly the key `9999`. -/
theorem spec_C2_amended (st : SubjectState) (ci : ChapterInfo) (d : Bool) :
    ((update_subject_index st ci d).1.index).Pairwise
      (fun a b => sort_key a ≤ sort_key b) ∧
    (∀ k : Nat, ((update_subject_index st ci d).1.index).filter
      (fun e => sort_key e == k) = (upsertByTitle st.index ci).filter
      (fun e => sort_key e == k)) ∧
    (∀ e : ChapterInfo, firstNum e.title.data = none → sort_key e = 9999) := by
  obtain ⟨h1, -⟩ := update_subject_index_eq st ci d
  refine ⟨h1 ▸ sortIndex_pairwise _, fun k => h1 ▸ sortIndex_stable _ k, ?_⟩
  intro e he
  rw [sort_key, he]

/-- Witness for C2 at a concrete input: the persisted index is key-sorted and
the digit-free title "Intro" carries the sentinel key 9999. -/
theorem spec_C2_amended_witness :
    ((update_subject_index ⟨[chap10000], []⟩ chapIntro true).1.index).Pairwise
      (fun a b => sort_key a ≤ sort_key b) ∧ sort_key chapIntro = 9999 :=
  ⟨(spec_C2_amended ⟨[chap10000], []⟩ chapIntro true).1,
   (spec_C2_amended ⟨[chap10000], []⟩ chapIntro true).2.2 chapIntro (by decide)⟩

theorem title_not_mem_map {l : List ChapterInfo} {t : String}
    (hall : ∀ e ∈ l, e.title ≠ t) : t ∉ l.map ChapterInfo.title := by
  intro hmem
  obtain ⟨e, he, hte⟩ := List.mem_map.1 hmem
  exact hall e he hte

theorem upsertByTitle_titles_nodup {l : List ChapterInfo} (ci : ChapterInfo)
    (h : (l.map ChapterInfo.title).Nodup) :
    ((upsertByTitle l ci).map ChapterInfo.title).Nodup := by
  cases hr : replaceByTitle l ci with
  | none =>
    have hall := replaceByTitle_none hr
    rw [upsertByTitle, hr, List.map_append]
    refine List.Nodup.append h (List.nodup_singleton _) ?_
    simp only [List.map_cons, List.map_nil]
    rw [List.disjoint_singleton]
    exact title_not_mem_map hall
  | some p =>
    obtain ⟨r, old⟩ := p
    obtain ⟨l1, l2, he1, he2, he3, -⟩ := replaceByTitle_some hr
    rw [upsertByTitle, hr]
    show ((r.map ChapterInfo.title)).Nodup
    have : (l1 ++ ci :: l2).map ChapterInfo.title =
        (l1 ++ old :: l2).map ChapterInfo.title := by
      simp only [List.map_append, List.map_cons, he3]
    rw [he2, this, ← he1]
    exact h

theorem upsertByTitle_filter {l : List ChapterInfo} (ci : ChapterInfo)
    (h : (l.map ChapterInfo.title).Nodup) :
    (upsertByTitle l ci).filter (fun e => e.title == ci.title) = [ci] := by
  cases hr : replaceByTitle l ci with
  | none =>
    have hall := replaceByTitle_none hr
    rw [upsertByTitle, hr, List.filter_append]
    rw [List.filter_eq_nil_iff.2 (fun e he => by simpa using hall e he)]
    simp
  | some p =>
    obtain ⟨r, old⟩ := p
    obtain ⟨l1, l2, he1, he2, he3, he4⟩ := replaceByTitle_some hr
    rw [upsertByTitle, hr, he2, List.filter_append, List.filter_cons]
    rw [List.filter_eq_nil_iff.2 (fun e he => by simpa using he4 e he)]
    have hl2 : ∀ e ∈ l2, e.title ≠ ci.title := by
      intro e he hte
      rw [he1, List.map_append, List.map_cons] at h
      have h2 := (h.of_append_right)
      have h3 := (List.nodup_cons.1 h2).1
      exact h3 (he3 ▸ hte ▸ List.mem_map_of_mem ChapterInfo.title he)
    rw [List.filter_eq_nil_iff.2 (fun e he => by simpa using hl2 e he)]
    simp

/-- C3: title uniqueness is an invariant. From an index whose entries have
pairwise-distinct titles, `update_subject_index` persists an index whose
titles are again pairwise distinct and that contains exactly one entry
titled like the new record, namely the new record itself (so its `file` and
`count` come from the second import). -/
theorem spec_C3 (st : SubjectState) (ci : ChapterInfo) (d : Bool)
    (h : (st.index.map ChapterInfo.title).Nodup) :
    (((update_subject_index st ci d).1.index).map ChapterInfo.title).Nodup ∧
    ((update_subject_index st ci d).1.index).filter
      (fun e => e.title == ci.title) = [ci] := by
  obtain ⟨h1, -⟩ := update_subject_index_eq st ci d
  rw [h1]
  constructor
  · exact ((sortIndex_perm _).map ChapterInfo.title).nodup_iff.2
      (upsertByTitle_titles_nodup ci h)
  · have hperm := (sortIndex_perm (upsertByTitle st.index ci)).filter
      (fun e => e.title == ci.title)
    rw [upsertByTitle_filter ci h] at hperm
    exact List.perm_singleton.1 hperm

/-- A pre-existing index entry for the witness state. -/
def chapOld : ChapterInfo :=
  { id := "c1", title := "Ch1", file := "f1.json", count := 1, updated_at := "t1" }

/-- A re-imported chapter record with the same title as `chapOld`. -/
def chapNew : ChapterInfo :=
  { id := "c2", title := "Ch1", file := "f2.json", count := 2, updated_at := "t2" }

/-- Witness for C3: re-importing title "Ch1" into an index holding one "Ch1"
entry keeps titles distinct and leaves exactly the new record under that
title. -/
theorem spec_C3_witness :
    (((update_subject_index ⟨[chapOld], ["f1.json"]⟩ chapNew true).1.index).map
      ChapterInfo.title).Nodup ∧
    ((update_subject_index ⟨[chapOld], ["f1.json"]⟩ chapNew true).1.index).filter
      (fun e => e.title == chapNew.title) = [chapNew] :=
  spec_C3 ⟨[chapOld], ["f1.json"]⟩ chapNew true (by decide)

/-- C7: when an existing entry with the same title is found and its stored
file name differs from the new record's, the old physical file is deleted
best-effort — the deletion's success (`d`) never influences the persisted
index or the returned length, a failed deletion leaves the files untouched —
and when the stored file name equals the new one no file is deleted. -/
theorem spec_C7 (st : SubjectState) (ci : ChapterInfo) (r : List ChapterInfo)
    (old : ChapterInfo) (h : replaceByTitle st.index ci = some (r, old)) :
    ((update_subject_index st ci true).1.index =
        (update_subject_index st ci false).1.index ∧
      (update_subject_index st ci true).2 = (update_subject_index st ci false).2) ∧
    (old.file = ci.file →
      ∀ d : Bool, (update_subject_index st ci d).1.files = st.files) ∧
    (old.file ≠ ci.file → old.file ∈ st.files →
      (update_subject_index st ci true).1.files = st.files.erase old.file ∧
      (update_subject_index st ci false).1.files = st.files) := by
  refine ⟨⟨?_, ?_⟩, ?_, ?_⟩
  · simp [update_subject_index, h]
  · simp [update_subject_index, h]
  · intro heq d
    simp [update_subject_index, h, heq]
  · intro hne hmem
    constructor <;> simp [update_subject_index, h, hne, hmem]

/-- Witness for C7: re-importing "Ch1" with a new file name deletes the old
"f1.json" exactly when the deletion succeeds, and the persisted index is the
same either way. -/
theorem spec_C7_witness :
    (update_subject_index ⟨[chapOld], ["f1.json"]⟩ chapNew true).1.files =
      (["f1.json"] : List String).erase "f1.json" ∧
    (update_subject_index ⟨[chapOld], ["f1.json"]⟩ chapNew false).1.files =
      ["f1.json"] ∧
    (update_subject_index ⟨[chapOld], ["f1.json"]⟩ chapNew true).1.index =
      (update_subject_index ⟨[chapOld], ["f1.json"]⟩ chapNew false).1.index := by
  have h := spec_C7 ⟨[chapOld], ["f1.json"]⟩ chapNew [chapNew] chapOld (by decide)
  have h3 := h.2.2 (by decide) (by decide)
  exact ⟨h3.1, h3.2, h.1.1⟩

/-! ## Helper lemmas about the registry upsert -/

theorem touchFirstByName_none {l : List SubjectEntry} {name now : String}
    (h : ∀ s ∈ l, s.name ≠ name) : touchFirstByName now name l = none := by
  induction l with
  | nil => rfl
  | cons a l ih =>
    rw [touchFirstByName, if_neg (h a (List.mem_cons_self a l)),
      ih (fun s hs => h s (List.mem_cons_of_mem a hs))]

theorem touchFirstByName_found (now name : String) :
    ∀ pre (s : SubjectEntry) post, s.name = name → (∀ t ∈ pre, t.name ≠ name) →
      touchFirstByName now name (pre ++ s :: post) =
        some (pre ++ { s with updated_at := now } :: post) := by
  intro pre
  induction pre with
  | nil =>
    intro s post hs _
    simp [touchFirstByName, hs]
  | cons a pre ih =>
    intro s post hs hpre
    rw [List.cons_append, touchFirstByName,
      if_neg (hpre a (List.mem_cons_self a pre)),
      ih s post hs (fun t ht => hpre t (List.mem_cons_of_mem a ht))]
    rfl

/-- Unfolding of the orchestrator on the success path: extraction non-empty
and partitioning raising no exception. -/
theorem process_of_partition (env : Env) (stem sn : String) (content : JSON)
    (st : Store) (chapters : List (String × List JSON))
    (h2 : partitionQuestions stem (extract_questions content) = some chapters)
    (h1 : extract_questions content ≠ []) :
    process_file_with_subject env stem sn content st =
      ({ subject := (saveChapters env sn 0 st.subject chapters).1,
         subjects := updateSubjects st.subjects sn env.sub_time env.now env.today },
       .ret true (String.intercalate "\n" (saveChapters env sn 0 st.subject chapters).2)) := by
  cases hq : extract_questions content with
  | nil => exact absurd hq h1
  | cons a l =>
    rw [hq] at h2
    simp only [process_file_with_subject, hq, h2, List.isEmpty_cons, Bool.false_eq_true,
      if_false]

/-- C9: the subject registry update is an upsert keyed by `name`. A name not
yet present appends exactly one entry whose `dir` equals the name, with id
and creation date set there; a present name leaves every other entry, and
the entry's own id, `created_at`, `dir` and `name`, unchanged and only
refreshes `updated_at`; and on every import whose extraction and
partitioning succeed the persisted registry is exactly this upsert. -/
theorem spec_C9 (subjects : List SubjectEntry) (name : String) (subTime : Nat)
    (now today : String) :
    ((∀ s ∈ subjects, s.name ≠ name) →
      updateSubjects subjects name subTime now today =
        subjects ++ [{ id := "sub_" ++ toString subTime, name := name, dir := name,
                       created_at := today, updated_at := now }]) ∧
    (∀ pre (s : SubjectEntry) post, subjects = pre ++ s :: post → s.name = name →
      (∀ t ∈ pre, t.name ≠ name) →
      updateSubjects subjects name subTime now today =
        pre ++ { s with updated_at := now } :: post) ∧
    (∀ (env : Env) (stem : String) (content : JSON) (st : Store)
       (chapters : List (String × List JSON)),
      partitionQuestions stem (extract_questions content) = some chapters →
      extract_questions content ≠ [] →
      (process_file_with_subject env stem name content st).1.subjects =
        updateSubjects st.subjects name env.sub_time env.now env.today) := by
  refine ⟨?_, ?_, ?_⟩
  · intro h
    rw [updateSubjects, touchFirstByName_none h]
  · intro pre s post hsub hs hpre
    rw [updateSubjects, hsub, touchFirstByName_found now name pre s post hs hpre]
  · intro env stem content st chapters h2 h1
    rw [process_of_partition env stem name content st chapters h2 h1]

/-- A registry entry for the witness states. -/
def subMath : SubjectEntry :=
  { id := "sub_1", name := "math", dir := "math", created_at := "d1", updated_at := "u1" }

/-- Witness for C9: importing a new name "bio" appends one fresh entry;
importing the present name "math" only refreshes its `updated_at`. -/
theorem spec_C9_witness :
    updateSubjects [subMath] "bio" 7 "n2" "d2" =
      [subMath] ++ [{ id := "sub_" ++ toString 7, name := "bio", dir := "bio",
                      created_at := "d2", updated_at := "n2" }] ∧
    updateSubjects [subMath] "math" 7 "n2" "d2" =
      [] ++ { subMath with updated_at := "n2" } :: [] :=
  ⟨(spec_C9 [subMath] "bio" 7 "n2" "d2").1 (by decide),
   (spec_C9 [subMath] "math" 7 "n2" "d2").2.1 [] subMath [] rfl (by decide)
     (by intro t ht; cases ht)⟩

/-- A one-question record, as in the spec's extraction examples. -/
def q1 : JSON := .obj [("question", .str "q1")]

/-- C4: extraction applies its shape-sniffing rules in order, first match
winning: a mapping with a `"questions"` key holding a sequence yields that
sequence no matter what else the mapping holds; a plain sequence is used
directly; scalars yield the empty result; and for a mapping without such a
key the first value in insertion order that is a non-empty sequence starting
with a `"question"`-keyed mapping is used — witnessed on the three spec
inputs, on a scan that skips a non-matching value, and on a mapping where
the `"questions"` rule beats an earlier-inserted scan candidate. -/
theorem spec_C4 :
    (∀ (fields : List (String × JSON)) (qs : List JSON),
      jlookup fields "questions" = some (.arr qs) →
      extract_questions (.obj fields) = qs) ∧
    (∀ qs : List JSON, extract_questions (.arr qs) = qs) ∧
    extract_questions .null = [] ∧
    (∀ b, extract_questions (.bool b) = []) ∧
    (∀ n, extract_questions (.num n) = []) ∧
    (∀ s, extract_questions (.str s) = []) ∧
    extract_questions (.obj [("questions", .arr [q1])]) = [q1] ∧
    extract_questions (.arr [q1]) = [q1] ∧
    extract_questions (.obj [("cat_a", .arr [q1])]) = [q1] ∧
    extract_questions (.obj [("a", .arr [.str "x"]), ("b", .arr [q1]),
      ("c", .arr [.obj [("question", .str "q2")]])]) = [q1] ∧
    extract_questions (.obj [("cat", .arr [.obj [("question", .str "q2")]]),
      ("questions", .arr [q1])]) = [q1] := by
  refine ⟨?_, fun qs => rfl, rfl, fun b => rfl, fun n => rfl, fun s => rfl,
    rfl, rfl, rfl, rfl, rfl⟩
  intro fields qs h
  simp only [extract_questions, h]

/-- Witness for C4: the `"questions"` rule applied at a concrete mapping. -/
theorem spec_C4_witness :
    jlookup [("questions", JSON.arr [])] "questions" = some (.arr []) ∧
    extract_questions (.obj [("questions", JSON.arr [])]) = [] :=
  ⟨rfl, spec_C4.1 [("questions", JSON.arr [])] [] rfl⟩

/-- C5: when extraction yields the empty result (in particular for content
`{}` or `[]`), the orchestrator returns `(False, "未找到题目数据")` — the
source's message, rendered in the spec as "no question data found" — and
leaves the whole store (subject index, chapter files, registry) untouched. -/
theorem spec_C5 (env : Env) (stem sn : String) (content : JSON) (st : Store)
    (h : extract_questions content = []) :
    process_file_with_subject env stem sn content st =
      (st, .ret false "未找到题目数据") := by
  simp [process_file_with_subject, h]

/-- A fully-successful environment for concrete runs. -/
def envEx : Env :=
  { base_time := 0, sub_time := 0, now := "now", today := "today",
    writeOk := fun _ => true, deleteOk := fun _ => true, errText := fun _ => "err" }

/-- An empty store for concrete runs. -/
def store0 : Store := { subject := { index := [], files := [] }, subjects := [] }

/-- Witness for C5 at the two contents named by the claim, `{}` and `[]`. -/
theorem spec_C5_witness :
    process_file_with_subject envEx "f" "s" (.obj []) store0 =
      (store0, .ret false "未找到题目数据") ∧
    process_file_with_subject envEx "f" "s" (.arr []) store0 =
      (store0, .ret false "未找到题目数据") :=
  ⟨spec_C5 envEx "f" "s" (.obj []) store0 rfl,
   spec_C5 envEx "f" "s" (.arr []) store0 rfl⟩

/-- C10: some valid contents pass extraction yet make the orchestrator raise
instead of returning a result: a bare array of strings (rule 3 accepts it,
then the non-mapping question makes the label lookup raise), and a question
whose `chapter` field holds a non-string (its `.strip()` raises). -/
theorem spec_C10 :
    extract_questions (.arr [.str "just a string"]) = [.str "just a string"] ∧
    (process_file_with_subject envEx "f" "s" (.arr [.str "just a string"])
      store0).2 = .exn ∧
    extract_questions (.arr [.obj [("question", .str "q"), ("chapter", .num 3)]]) =
      [.obj [("question", .str "q"), ("chapter", .num 3)]] ∧
    (process_file_with_subject envEx "f" "s"
      (.arr [.obj [("question", .str "q"), ("chapter", .num 3)]]) store0).2 = .exn :=
  ⟨rfl, rfl, rfl, rfl⟩

/-! ## Helper lemmas about the chapter partition -/

/-- Record one label occurrence in a key list: keep the list when the label
was already seen, otherwise append it. -/
def addKey (ks : List String) (l : String) : List String :=
  if l ∈ ks then ks else ks ++ [l]

/-- The labels of a question sequence in first-seen order (the spec's
"group preserving first-seen-label order"). -/
def firstSeenKeys (ls : List String) : List String := ls.foldl addKey []

/-- The question group stored under a label in the partition map
(`[]` when the label is absent). -/
def lookupGroup : List (String × List JSON) → String → List JSON
  | [], _ => []
  | (k, g) :: rest, l => if k = l then g else lookupGroup rest l

theorem insertAppend_keys (m : List (String × List JSON)) (k : String) (q : JSON) :
    (insertAppend m k q).map Prod.fst = addKey (m.map Prod.fst) k := by
  induction m with
  | nil => simp [insertAppend, addKey]
  | cons p rest ih =>
    obtain ⟨k1, g⟩ := p
    rw [insertAppend]
    by_cases hk : k1 = k
    · subst hk
      rw [if_pos rfl, addKey, if_pos (by rw [List.map_cons]; exact List.mem_cons_self _ _)]
      rfl
    · rw [if_neg hk, List.map_cons, ih, List.map_cons, addKey, addKey]
      by_cases hmem : k ∈ rest.map Prod.fst
      · rw [if_pos hmem, if_pos (List.mem_cons_of_mem _ hmem)]
      · rw [if_neg hmem, if_neg (by
          intro hc
          rcases List.mem_cons.1 hc with hc1 | hc2
          · exact hk hc1.symm
          · exact hmem hc2)]
        rfl

theorem insertAppend_lookup (m : List (String × List JSON)) (k : String) (q : JSON)
    (l : String) :
    lookupGroup (insertAppend m k q) l =
      if k = l then lookupGroup m l ++ [q] else lookupGroup m l := by
  induction m with
  | nil => by_cases hkl : k = l <;> simp [insertAppend, lookupGroup, hkl]
  | cons p rest ih =>
    obtain ⟨k1, g⟩ := p
    rw [insertAppend]
    by_cases hk : k1 = k
    · subst hk
      by_cases hkl : k1 = l <;> simp [lookupGroup, hkl]
    · rw [if_neg hk]
      by_cases h1l : k1 = l
      · have hkl : ¬ k = l := fun h => hk (h1l.trans h.symm)
        simp [lookupGroup, h1l, hkl]
      · simp [lookupGroup, h1l, ih]

theorem partitionGo_keys (f : String) :
    ∀ (qs : List JSON) (acc : List (String × List JSON)) m,
      partitionGo f acc qs = some m →
      m.map Prod.fst = (qs.filterMap (chapterLabel f)).foldl addKey (acc.map Prod.fst) := by
  intro qs
  induction qs with
  | nil =>
    intro acc m h
    rw [Option.some.inj h]
    rfl
  | cons q qs ih =>
    intro acc m h
    rw [partitionGo] at h
    cases hl : chapterLabel f q with
    | none => rw [hl] at h; cases h
    | some l =>
      rw [hl] at h
      rw [ih (insertAppend acc l q) m h, insertAppend_keys,
        List.filterMap_cons_some hl, List.foldl_cons]

theorem partitionGo_lookup (f : String) :
    ∀ (qs : List JSON) (acc : List (String × List JSON)) m,
      partitionGo f acc qs = some m →
      ∀ l, lookupGroup m l =
        lookupGroup acc l ++ qs.filter (fun q => chapterLabel f q == some l) := by
  intro qs
  induction qs with
  | nil =>
    intro acc m h l
    rw [Option.some.inj h]
    simp
  | cons q qs ih =>
    intro acc m h l
    rw [partitionGo] at h
    cases hl : chapterLabel f q with
    | none => rw [hl] at h; cases h
    | some l0 =>
      rw [hl] at h
      rw [ih (insertAppend acc l0 q) m h l, insertAppend_lookup, List.filter_cons, hl]
      by_cases h0 : l0 = l
      · rw [if_pos h0, if_pos (by simp [h0]), List.append_assoc]
        rfl
      · rw [if_neg h0, if_neg (by simp [h0])]

/-- A question lacking a `chapter` field. -/
def qNoChapA : JSON := .obj [("question", .str "a")]

/-- Another question lacking a `chapter` field. -/
def qNoChapB : JSON := .obj [("question", .str "b")]

/-- C6: partitioning maps each question, in input order, to its trimmed
`chapter` label, falling back to the source stem when the field is absent or
trims to empty; whenever the partition raises no exception, the map's labels
are in first-seen order and each label holds exactly its questions in input
order; and a `biology.json` file whose questions lack a `chapter` field
produces exactly one chapter labeled "biology". -/
theorem spec_C6 :
    (∀ (fallback : String) (qs : List JSON) (m : List (String × List JSON)),
      partitionQuestions fallback qs = some m →
      m.map Prod.fst = firstSeenKeys (qs.filterMap (chapterLabel fallback)) ∧
      ∀ l, lookupGroup m l = qs.filter (fun q => chapterLabel fallback q == some l)) ∧
    (∀ (fallback : String) (fields : List (String × JSON)),
      jlookup fields "chapter" = none →
      chapterLabel fallback (.obj fields) = some fallback) ∧
    (∀ (fallback s : String) (fields : List (String × JSON)),
      jlookup fields "chapter" = some (.str s) → stripWS s = "" →
      chapterLabel fallback (.obj fields) = some fallback) ∧
    (∀ (fallback s : String) (fields : List (String × JSON)),
      jlookup fields "chapter" = some (.str s) → stripWS s ≠ "" →
      chapterLabel fallback (.obj fields) = some (stripWS s)) ∧
    partitionQuestions "biology" [qNoChapA, qNoChapB] =
      some [("biology", [qNoChapA, qNoChapB])] := by
  refine ⟨?_, ?_, ?_, ?_, rfl⟩
  · intro fallback qs m h
    refine ⟨partitionGo_keys fallback qs [] m h, fun l => ?_⟩
    rw [partitionGo_lookup fallback qs [] m h l]
    rfl
  · intro fallback fields h
    simp only [chapterLabel, h]
  · intro fallback s fields h ht
    simp only [chapterLabel, h]
    rw [if_pos ht]
  · intro fallback s fields h ht
    simp only [chapterLabel, h]
    rw [if_neg ht]

/-- Witness for C6: the two-question biology file, partitioned concretely,
has exactly the label list `["biology"]` and that label's group is the full
question list in input order. -/
theorem spec_C6_witness :
    ([("biology", [qNoChapA, qNoChapB])].map Prod.fst =
      firstSeenKeys ([qNoChapA, qNoChapB].filterMap (chapterLabel "biology"))) ∧
    lookupGroup [("biology", [qNoChapA, qNoChapB])] "biology" =
      [qNoChapA, qNoChapB].filter
        (fun q => chapterLabel "biology" q == some "biology") :=
  ⟨(spec_C6.1 "biology" [qNoChapA, qNoChapB] [("biology", [qNoChapA, qNoChapB])] rfl).1,
   (spec_C6.1 "biology" [qNoChapA, qNoChapB] [("biology", [qNoChapA, qNoChapB])] rfl).2
     "biology"⟩

/-! ## Helper lemmas about the chapter-save loop -/

theorem saveChapters_log (env : Env) (sn : String) :
    ∀ (chs : List (String × List JSON)) (i : Nat) (st : SubjectState),
      (saveChapters env sn i st chs).2 =
        chs.mapIdx (fun j c =>
          if env.writeOk (i + j) then okLine sn c.1 c.2.length
          else errLine c.1 (env.errText (i + j))) := by
  intro chs
  induction chs with
  | nil => intro i st; rfl
  | cons c rest ih =>
    intro i st
    obtain ⟨chap, qlist⟩ := c
    have hfun : ∀ g : Nat → (String × List JSON) → String,
        (fun j (c : String × List JSON) => g (i + 1 + j) c) =
        (fun j (c : String × List JSON) => g (i + (j + 1)) c) := by
      intro g
      funext j c
      rw [Nat.add_assoc, Nat.add_comm 1 j]
    by_cases hw : env.writeOk i = true
    · rw [saveChapters, if_pos hw, List.mapIdx_cons]
      show okLine sn chap qlist.length :: _ = _ :: _
      simp only [Nat.add_zero, hw, if_true]
      rw [ih]
      exact congrArg (fun f => _ :: List.mapIdx f rest)
        (hfun (fun n c => if env.writeOk n then okLine sn c.1 c.2.length
          else errLine c.1 (env.errText n)))
    · rw [saveChapters, if_neg hw, List.mapIdx_cons]
      show errLine chap (env.errText i) :: _ = _ :: _
      rw [Bool.not_eq_true] at hw
      simp only [Nat.add_zero, hw, Bool.false_eq_true, if_false]
      rw [ih]
      exact congrArg (fun f => _ :: List.mapIdx f rest)
        (hfun (fun n c => if env.writeOk n then okLine sn c.1 c.2.length
          else errLine c.1 (env.errText n)))

/-- C8 counterexample: an import whose extraction yields a non-empty question
sequence (a bare array holding a string) does not return success — the label
lookup on the non-mapping question raises and the call ends in an unhandled
exception, so success is not returned for every non-empty extraction. -/
theorem spec_C8_counterexample :
    extract_questions (.arr [.str "x"]) = [.str "x"] ∧
    (process_file_with_subject envEx "f" "s" (.arr [.str "x"]) store0).2 = .exn :=
  ⟨rfl, rfl⟩

/-- C8 corrected: for every import whose extraction is non-empty AND whose
partitioning raises no exception, the orchestrator returns success with the
joined log lines no matter which chapter writes fail; the log carries, in
chapter order, a success line for each written chapter and an error line for
each failed one; and a failed write leaves the subject state untouched for
the rest of the loop (its index update is skipped) while later chapters are
still processed with the next index. -/
theorem spec_C8_amended (env : Env) (stem sn : String) (content : JSON)
    (st : Store) (chapters : List (String × List JSON))
    (h2 : partitionQuestions stem (extract_questions content) = some chapters)
    (h1 : extract_questions content ≠ []) :
    (process_file_with_subject env stem sn content st).2 =
      .ret true (String.intercalate "\n"
        (saveChapters env sn 0 st.subject chapters).2) ∧
    (saveChapters env sn 0 st.subject chapters).2 =
      chapters.mapIdx (fun j c =>
        if env.writeOk j then okLine sn c.1 c.2.length
        else errLine c.1 (env.errText j)) ∧
    (∀ (i : Nat) (st1 : SubjectState) (chap : String) (qlist : List JSON)
       (rest : List (String × List JSON)), env.writeOk i = false →
      saveChapters env sn i st1 ((chap, qlist) :: rest) =
        ((saveChapters env sn (i + 1) st1 rest).1,
         errLine chap (env.errText i) :: (saveChapters env sn (i + 1) st1 rest).2)) := by
  refine ⟨?_, ?_, ?_⟩
  · rw [process_of_partition env stem sn content st chapters h2 h1]
  · rw [saveChapters_log env sn chapters 0 st.subject]
    refine congrArg (fun f => List.mapIdx f chapters) ?_
    funext j c
    rw [Nat.zero_add]
  · intro i st1 chap qlist rest hw
    rw [saveChapters, if_neg (by rw [hw]; exact Bool.false_ne_true)]

/-- Environment whose first chapter write fails ("disk full") and later ones
succeed. -/
def envFail : Env :=
  { base_time := 0, sub_time := 0, now := "now", today := "today",
    writeOk := fun i => i != 0, deleteOk := fun _ => true,
    errText := fun _ => "disk full" }

/-- A question labeled chapter "A". -/
def qChapA : JSON := .obj [("question", .str "q1"), ("chapter", .str "A")]

/-- A question labeled chapter "B". -/
def qChapB : JSON := .obj [("question", .str "q2"), ("chapter", .str "B")]

/-- Witness for C8: with the first of two chapter writes failing, the call
still returns success with the joined log, and the failing first chapter
only adds an error line while chapter "B" is processed at index 1 from the
unchanged state. -/
theorem spec_C8_amended_witness :
    (process_file_with_subject envFail "f" "s" (.arr [qChapA, qChapB]) store0).2 =
      .ret true (String.intercalate "\n"
        (saveChapters envFail "s" 0 store0.subject
          [("A", [qChapA]), ("B", [qChapB])]).2) ∧
    saveChapters envFail "s" 0 store0.subject [("A", [qChapA]), ("B", [qChapB])] =
      ((saveChapters envFail "s" 1 store0.subject [("B", [qChapB])]).1,
       errLine "A" (envFail.errText 0) ::
         (saveChapters envFail "s" 1 store0.subject [("B", [qChapB])]).2) := by
  have h := spec_C8_amended envFail "f" "s" (.arr [qChapA, qChapB]) store0
    [("A", [qChapA]), ("B", [qChapB])] rfl (by intro hc; exact List.noConfusion hc)
  exact ⟨h.1, h.2.2 0 store0.subject "A" [qChapA] [("B", [qChapB])] rfl⟩

end Tiku
